import Mathlib

/-!
Shallow embedding of the DRCSA simulator's policy data engine
(`drc_sa_calculator/domain/engine/policy.py`,
`drc_sa_calculator/domain/engine/calculator.py`,
`drc_sa_calculator/domain/compare.py`) together with theorems settling the
specification claims about classification, risk-weight and LGD resolution,
scenario comparison, policy validation and canonical table hashing.

Python's dynamically typed YAML payloads are modelled by the inductive type
`V` (numbers, booleans, strings, sequences, string-keyed mappings); mappings
are association lists looked up by string key, mirroring `dict` access.
Numbers are modelled by `ℚ`; every arithmetic step performed by the engine is
reproduced literally, so each stated equation is the one the code computes.
Fallible code returns `Except PErr`.
-/

namespace DRCSA

/-- Dynamically typed payload value, as produced by parsing a policy table:
a Python number (`int`/`float`, excluding `bool`), a `bool` (which Python
treats as an `int` in `isinstance` checks, hence the separate constructor),
a string, a list, or a string-keyed mapping. -/
inductive V : Type where
  | num (q : ℚ)
  | bool (b : Bool)
  | str (s : String)
  | seq (items : List V)
  | map (entries : List (String × V))

/-- Python truthiness of an optional string field: `None` and `""` are falsy. -/
def truthy : Option String → Bool
  | none => false
  | some s => !s.isEmpty

/-- The string content of an optional field, `""` when absent
(`exposure.exposure_class or ""`). -/
def strOf : Option String → String
  | none => ""
  | some s => s

/-- Python `a or b` on optional strings: keep `a` when truthy, else `b`. -/
def pyOr (a b : Option String) : Option String := if truthy a then a else b

/-- Split a character list at every occurrence of the separator.  Mirrors
Python `str.split(sep)` for a one-character separator: `n` separators yield
`n+1` (possibly empty) groups. -/
def splitChar (sep : Char) : List Char → List (List Char)
  | [] => [[]]
  | c :: rest =>
      let r := splitChar sep rest
      if c = sep then [] :: r
      else
        match r with
        | [] => [[c]]
        | g :: gs => (c :: g) :: gs

/-- Python `s.split("/")` (and any single-character separator). -/
def pySplit (s : String) (sep : Char) : List String :=
  (splitChar sep s.data).map (fun cs => String.mk cs)

/-- Python `s.strip()`: remove leading and trailing whitespace. -/
def pyStrip (s : String) : String :=
  String.mk
    (((s.data.dropWhile Char.isWhitespace).reverse.dropWhile
      Char.isWhitespace).reverse)

/-- Python truthiness of a payload value (`if product_map:`). -/
def vTruthy : V → Bool
  | .num q => decide (q ≠ 0)
  | .bool b => b
  | .str s => !s.isEmpty
  | .seq l => !l.isEmpty
  | .map l => !l.isEmpty

/-- `isinstance(value, int | float)`. Python `bool` is a subclass of `int`,
so boolean leaves satisfy this check. -/
def V.isNumeric : V → Bool
  | .num _ => true
  | .bool _ => true
  | _ => false

/-- `float(value)` on a value that passed `isinstance(value, int | float)`:
numbers are themselves, `True` is `1.0` and `False` is `0.0`. -/
def V.toFloat : V → ℚ
  | .num q => q
  | .bool b => if b then 1 else 0
  | _ => 0

/-- `float(value)` applied without a numeric guard: succeeds on numbers and
booleans, raises `TypeError` on mappings and sequences (modelled as `none`).
Python's `float` also parses numeric strings, but string leaves cannot occur
inside a validated `lgd` table (see `validateNumericMapping`), which is the
only place this unguarded conversion is reached by the engine. -/
def V.toFloatQ : V → Option ℚ
  | .num q => some q
  | .bool b => some (if b then 1 else 0)
  | _ => none

/-- Mapping lookup on an entry list (`dict` access keyed by string). -/
def vLookup (entries : List (String × V)) (k : String) : Option V :=
  entries.lookup k

/-- `value.get(k)` when `value` is a mapping; `none` otherwise. Python would
raise on a non-mapping receiver, but the engine only reaches this on values
that validated mappings tables guarantee to be mappings. -/
def vGet : V → String → Option V
  | .map l, k => vLookup l k
  | _, _ => none

/-- `value.get(k)` expecting a string result, as the classification step does
on a validated `product_mappings` entry (validation guarantees non-empty
string values for `exposure` / `quality_step`). -/
def vGetStr (v : V) (k : String) : Option String :=
  match vGet v k with
  | some (V.str s) => some s
  | _ => none

/-- Error kinds raised by the engine. `classification` is listed because the
specification names a `ClassificationError`; the code under `src/` defines
and raises only `RiskWeightResolutionError` (plus `PolicyDataValidationError`
in the loader). `typeError` models Python `TypeError` from an unguarded
`float()` call. -/
inductive PErr : Type where
  | riskWeightResolution (msg : String)
  | classification (msg : String)
  | policyValidation (msg : String)
  | typeError (msg : String)
deriving DecidableEq

/-- `models.Exposure`: a single exposure. Optional string fields default to
`None`; `notional` is a (positive) number. -/
structure Exposure : Type where
  trade_id : String
  notional : ℚ
  currency : String
  product_type : Option String := none
  exposure_class : Option String := none
  quality_step : Option String := none
  counterparty_grade : Option String := none
  lgd_grade : Option String := none
  hedging_set : Option String := none
  metadata : List (String × String) := []
deriving DecidableEq

/-- `engine.policy.PolicyData`: the four validated tables plus hashes. -/
structure PolicyData : Type where
  name : String
  risk_weights : List (String × V)
  lgd_tables : List (String × V)
  hedging_rules : List (String × V)
  mappings : List (String × V)
  hashes : List (String × String)

/-- Step 2 of `_resolve_classification`: starting from the exposure's
explicit `exposure_class` / `quality_step`, fill the still-unset field(s)
from `mappings.product_mappings[product_type]` when the exposure has a
truthy `product_type`, either field is unset, the product is mapped and the
mapped value is truthy.  Already-set fields are kept (`x or y`). -/
def afterProductStep (mappings : List (String × V)) (e : Exposure) :
    Option String × Option String :=
  let ec := e.exposure_class
  let q := e.quality_step
  if truthy e.product_type && (!truthy ec || !truthy q) then
    let pmTable := (vLookup mappings "product_mappings").getD (V.map [])
    match vGet pmTable (strOf e.product_type) with
    | some pm =>
        if vTruthy pm then
          (pyOr ec (vGetStr pm "exposure"), pyOr q (vGetStr pm "quality_step"))
        else (ec, q)
    | none => (ec, q)
  else (ec, q)

/-- Step 3 of `_resolve_classification`: when `quality_step` is still unset
and the exposure carries a truthy `counterparty_grade`, look the grade up in
`mappings.counterparty_grades` (a direct lookup, no further fallback). -/
def afterGradeStep (mappings : List (String × V)) (e : Exposure) :
    Option String × Option String :=
  let ecq := afterProductStep mappings e
  if truthy e.counterparty_grade && !truthy ecq.2 then
    let gradeTable := (vLookup mappings "counterparty_grades").getD (V.map [])
    (ecq.1, vGetStr gradeTable (strOf e.counterparty_grade))
  else ecq

/-- `DRCSACalculationEngine._resolve_classification`: derive the ordered
classification path for one exposure, or fail with
`RiskWeightResolutionError` naming the missing field.  The final path is the
effective `exposure_class` followed by the non-empty `/`-separated segments
of the effective `quality_step`. -/
def resolveClassification (mappings : List (String × V)) (e : Exposure) :
    Except PErr (List String) :=
  let ecq := afterGradeStep mappings e
  if !truthy ecq.1 then
    .error (.riskWeightResolution
      ("Exposure " ++ e.trade_id ++
        " missing exposure_class and no mapping available"))
  else if !truthy ecq.2 then
    .error (.riskWeightResolution
      ("Exposure " ++ e.trade_id ++ " missing quality_step for class " ++
        strOf ecq.1))
  else
    .ok (strOf ecq.1 ::
      (pySplit (strOf ecq.2) (Char.ofNat 47)).filter (fun s => s ≠ ""))

/-- `"/".join(classification_path)`. -/
def joinPath (path : List String) : String := String.intercalate "/" path

/-- The traversal loop of `_risk_weight_from_policy`: for every path segment
(including the last), fail if the segment is absent from the current node,
descend when its value is a nested mapping, and otherwise replace the node by
the single-entry mapping `{segment: value}` wrapping the leaf. -/
def rwLoop (pathStr : String) :
    List (String × V) → List String → Except PErr (List (String × V))
  | node, [] => .ok node
  | node, seg :: rest =>
      match vLookup node seg with
      | none => .error (.riskWeightResolution
          ("Classification path " ++ pathStr ++ " not present in policy"))
      | some (V.map l) => rwLoop pathStr l rest
      | some v => rwLoop pathStr [(seg, v)] rest

/-- The failure raised when the final lookup of `_risk_weight_from_policy`
does not produce a Python-numeric value. -/
def nonNumericFailure (path : List String) : Except PErr ℚ :=
  .error (.riskWeightResolution
    ("Classification path " ++ joinPath path ++ " resolved to non-numeric value"))

/-- `DRCSACalculationEngine._risk_weight_from_policy`, applied to the
`risk_weights.exposures` mapping: run the traversal loop over every segment,
then look the last segment up in the resulting node and return `float` of the
value when it is Python-numeric, failing otherwise.  An empty path cannot be
produced by classification; Python would raise `IndexError` there. -/
def riskWeightResolve (exposures : List (String × V)) (path : List String) :
    Except PErr ℚ :=
  match path.getLast? with
  | none => .error (.typeError "classification path is empty")
  | some last =>
      match rwLoop (joinPath path) exposures path with
      | .error e => .error e
      | .ok node =>
          match vLookup node last with
          | some v => if v.isNumeric then .ok v.toFloat else nonNumericFailure path
          | none => nonNumericFailure path

/-- `policy.risk_weights["exposures"]`: a validated `risk_weights` table
always carries an `exposures` mapping (Python would raise `KeyError`
otherwise). -/
def exposuresTable (policy : PolicyData) : List (String × V) :=
  match vLookup policy.risk_weights "exposures" with
  | some (V.map l) => l
  | _ => []

/-- `_risk_weight_from_policy` at the policy level. -/
def riskWeightFromPolicy (policy : PolicyData) (path : List String) :
    Except PErr ℚ :=
  riskWeightResolve (exposuresTable policy) path

/-- The quality-step segments used by the LGD fallback walk:
`exposure.quality_step.split("/") if exposure.quality_step else []`.
Unlike classification, empty segments are not filtered out here. -/
def qualitySegments (e : Exposure) : List String :=
  if truthy e.quality_step then pySplit (strOf e.quality_step) (Char.ofNat 47) else []

/-- The fallback loop of `_resolve_lgd`: walk the quality-step segments in
order against the current node; whenever the node is a mapping containing
the segment, return `float` of the value if it is Python-numeric, else make
that value the current node; a segment absent from the node (or a
non-mapping node) is skipped and the walk continues with the next segment
against the same node. -/
def lgdWalk : V → List String → Option ℚ
  | _, [] => none
  | node, seg :: rest =>
      match node with
      | .map l =>
          match vLookup l seg with
          | some cand =>
              if cand.isNumeric then some cand.toFloat else lgdWalk cand rest
          | none => lgdWalk (V.map l) rest
      | _ => lgdWalk node rest

/-- The `if exposure_key:` block of `_resolve_lgd`: look the effective
exposure class up in the `lgd` mapping; when the result is a mapping, try
the direct `lgd_grade` key first (an unguarded `float()` call, which raises
`TypeError` when the stored value is itself a mapping), otherwise fall back
to the quality-step walk.  Yields `.ok none` when the class is unset, the
class is not a key, the stored value is not a mapping, or the walk finds
nothing. -/
def classLgd (lgd_table : List (String × V)) (e : Exposure) :
    Except PErr (Option ℚ) :=
  let classKey := strOf e.exposure_class
  let gradeKey := strOf e.lgd_grade
  if classKey ≠ "" then
    match vLookup lgd_table classKey with
    | some (V.map node) =>
        match (if gradeKey ≠ "" then vLookup node gradeKey else none) with
        | some cand =>
            match cand.toFloatQ with
            | some q => .ok (some q)
            | none => .error (.typeError
                "float() applied to a non-numeric LGD value")
        | none => .ok (lgdWalk (V.map node) (qualitySegments e))
    | _ => .ok none
  else .ok none

/-- `policy.lgd_tables.get("lgd", {})`: the `lgd` mapping of the
`lgd_tables` table, empty when absent (validated tables always hold a
mapping here). -/
def lgdTableOf (lgd_tables : List (String × V)) : List (String × V) :=
  match vLookup lgd_tables "lgd" with
  | some (V.map l) => l
  | _ => []

/-- `DRCSACalculationEngine._resolve_lgd` applied to the `lgd_tables` table:
no LGD when the exposure supplies neither a truthy `lgd_grade` nor a truthy
`exposure_class`; otherwise the class-keyed lookup of `classLgd`, and when
that produced no value, the top-level `lgd_grade` key of the `lgd` mapping
when it maps directly to a Python-numeric value. -/
def resolveLgd (lgd_tables : List (String × V)) (e : Exposure) :
    Except PErr (Option ℚ) :=
  if !truthy e.lgd_grade && !truthy e.exposure_class then .ok none
  else
    let lgd_table := lgdTableOf lgd_tables
    let gradeKey := strOf e.lgd_grade
    match classLgd lgd_table e with
    | .error err => .error err
    | .ok (some q) => .ok (some q)
    | .ok none =>
        if gradeKey ≠ "" then
          match vLookup lgd_table gradeKey with
          | some cand =>
              if cand.isNumeric then .ok (some cand.toFloat) else .ok none
          | none => .ok none
        else .ok none

/-- `models.ExposureComputation`: per-exposure output. -/
structure ExposureComputation : Type where
  trade_id : String
  notional : ℚ
  risk_weight : ℚ
  capital_charge : ℚ
  classification_path : List String
  lgd : Option ℚ
  metadata : List (String × String)
deriving DecidableEq

/-- `DRCSACalculationEngine._compute_exposure`: classify, resolve the risk
weight and the optional LGD, then `capital_charge = notional * risk_weight`,
multiplied by the LGD when one resolved. -/
def computeExposure (policy : PolicyData) (e : Exposure) :
    Except PErr ExposureComputation := do
  let path ← resolveClassification policy.mappings e
  let rw ← riskWeightFromPolicy policy path
  let lgd ← resolveLgd policy.lgd_tables e
  let charge0 := e.notional * rw
  let charge := match lgd with
    | some l => charge0 * l
    | none => charge0
  .ok { trade_id := e.trade_id
        notional := e.notional
        risk_weight := rw
        capital_charge := charge
        classification_path := path
        lgd := lgd
        metadata := e.metadata }

/-- `models.ScenarioResult`. -/
structure ScenarioResult : Type where
  scenario_name : String
  total_capital_charge : ℚ
  exposures : List ExposureComputation
  exposure_count : Nat
  total_notional : ℚ
deriving DecidableEq

/-- `models.ScenarioComparison`. -/
structure ScenarioComparison : Type where
  baseline : ScenarioResult
  scenario : ScenarioResult
  delta_total_charge : ℚ
  exposure_deltas : List (String × ℚ)
deriving DecidableEq

/-- Python `dict` insertion `m[k] = v`: overwrite in place when the key is
already present (keeping its original position), else append. -/
def dictInsert (m : List (String × ℚ)) (k : String) (v : ℚ) :
    List (String × ℚ) :=
  if (m.lookup k).isSome then
    m.map (fun p => if p.1 = k then (k, v) else p)
  else m ++ [(k, v)]

/-- Build a `dict` from a list of key-value pairs inserted in order. -/
def buildDict (pairs : List (String × ℚ)) : List (String × ℚ) :=
  pairs.foldl (fun m p => dictInsert m p.1 p.2) []

/-- `compare.compare_scenarios`: index the baseline charges by trade id,
then give every scenario exposure the delta against its baseline charge
(`0.0` when the trade id is absent from the baseline); the total delta is
the difference of the scenario totals. -/
def compare_scenarios (baseline scenario : ScenarioResult) :
    ScenarioComparison :=
  let baseline_map :=
    buildDict (baseline.exposures.map fun x => (x.trade_id, x.capital_charge))
  let exposure_deltas :=
    scenario.exposures.foldl
      (fun m x =>
        dictInsert m x.trade_id
          (x.capital_charge - ((baseline_map.lookup x.trade_id).getD 0)))
      []
  { baseline := baseline
    scenario := scenario
    delta_total_charge :=
      scenario.total_capital_charge - baseline.total_capital_charge
    exposure_deltas := exposure_deltas }

mutual
/-- `policy._validate_numeric_mapping`: walk the entries in order; descend
into nested mappings, accept values satisfying `isinstance(value, int | float)`
(which includes Python booleans), and fail on anything else, naming the
offending dotted path. -/
def validateNumericMapping (path : String) :
    List (String × V) → Except String Unit
  | [] => .ok ()
  | (k, v) :: rest =>
      match validateNumericEntry path k v with
      | .error e => .error e
      | .ok _ => validateNumericMapping path rest

/-- One loop iteration of `_validate_numeric_mapping` on the value at key
`k`. -/
def validateNumericEntry (path k : String) : V → Except String Unit
  | .map l => validateNumericMapping (path ++ "." ++ k) l
  | .num _ => .ok ()
  | .bool _ => .ok ()
  | _ => .error (path ++ "." ++ k ++
      " must resolve to a numeric value or mapping")
end

/-- `policy._validate_versioned_payload`: the payload must carry a `version`
string that is non-empty after stripping whitespace. -/
def validateVersionedPayload (name : String) (payload : List (String × V)) :
    Except String Unit :=
  match vLookup payload "version" with
  | some (V.str s) =>
      if (pyStrip s).isEmpty then
        .error (name ++ " requires a non-empty 'version' field")
      else .ok ()
  | _ => .error (name ++ " requires a non-empty 'version' field")

/-- `policy._validate_risk_weights` (the Python validator returns the payload
unchanged; only the pass/fail outcome is modelled). -/
def validateRiskWeights (payload : List (String × V)) : Except String Unit :=
  match validateVersionedPayload "risk_weights" payload with
  | .error e => .error e
  | .ok _ =>
      match vLookup payload "exposures" with
      | some (V.map exposures) =>
          validateNumericMapping "risk_weights.exposures" exposures
      | _ => .error "risk_weights must define an 'exposures' mapping"

/-- `policy._validate_lgd_tables`. -/
def validateLgdTables (payload : List (String × V)) : Except String Unit :=
  match validateVersionedPayload "lgd_tables" payload with
  | .error e => .error e
  | .ok _ =>
      match vLookup payload "lgd" with
      | some (V.map table) => validateNumericMapping "lgd_tables.lgd" table
      | _ => .error "lgd_tables must define an 'lgd' mapping"

/-- The per-product loop of `policy._validate_mappings`: every product maps
to a mapping holding non-empty `exposure` and `quality_step` strings. -/
def validateProductEntries : List (String × V) → Except String Unit
  | [] => .ok ()
  | (product, v) :: rest =>
      match v with
      | .map pm =>
          match vLookup pm "exposure" with
          | some (V.str s) =>
              if s.isEmpty then
                .error ("mappings '" ++ product ++
                  "' requires a non-empty exposure string")
              else
                match vLookup pm "quality_step" with
                | some (V.str t) =>
                    if t.isEmpty then
                      .error ("mappings '" ++ product ++
                        "' requires a non-empty quality_step string")
                    else validateProductEntries rest
                | _ => .error ("mappings '" ++ product ++
                    "' requires a non-empty quality_step string")
          | _ => .error ("mappings '" ++ product ++
              "' requires a non-empty exposure string")
      | _ => .error ("mappings for product '" ++ product ++
          "' must be a mapping")

/-- The counterparty-grades loop of `policy._validate_mappings`: every grade
maps to a string (keys are strings by construction in this model). -/
def validateGradeEntries : List (String × V) → Except String Unit
  | [] => .ok ()
  | (_, v) :: rest =>
      match v with
      | .str _ => validateGradeEntries rest
      | _ => .error
          "counterparty_grades must map grade strings to target strings"

/-- `policy._validate_mappings`. -/
def validateMappings (payload : List (String × V)) : Except String Unit :=
  match validateVersionedPayload "mappings" payload with
  | .error e => .error e
  | .ok _ =>
      match vLookup payload "product_mappings" with
      | some (V.map pms) =>
          match validateProductEntries pms with
          | .error e => .error e
          | .ok _ =>
              match vLookup payload "counterparty_grades" with
              | some (V.map grades) =>
                  if grades.isEmpty then
                    .error ("mappings must define a non-empty " ++
                      "'counterparty_grades' mapping")
                  else validateGradeEntries grades
              | _ => .error ("mappings must define a non-empty " ++
                  "'counterparty_grades' mapping")
      | _ => .error "mappings must define a 'product_mappings' mapping"

/-- Python string comparison on character lists: lexicographic over code
points (`sorted` on the keys of a `dict`). -/
def charListLe : List Char → List Char → Bool
  | [], _ => true
  | _ :: _, [] => false
  | a :: as, b :: bs =>
      if a.toNat < b.toNat then true
      else if b.toNat < a.toNat then false
      else charListLe as bs

/-- Python `<=` on strings. -/
def strLeB (a b : String) : Bool := charListLe a.data b.data

/-- Insert one key-value pair into a key-sorted entry list. -/
def insertKey (p : String × V) : List (String × V) → List (String × V)
  | [] => [p]
  | q :: rest => if strLeB p.1 q.1 then p :: q :: rest else q :: insertKey p rest

/-- Sort an entry list by key (the effect of iterating `sorted(data)` over a
`dict`'s keys; keys of a `dict` are distinct, so any comparison sort yields
the same result). -/
def sortByKey : List (String × V) → List (String × V)
  | [] => []
  | p :: rest => insertKey p (sortByKey rest)

mutual
/-- `policy._sort_structure`: recursively sort every mapping by key, leave
sequences in their original order with elements canonicalized, and return
every other value unchanged. -/
def sortStructure : V → V
  | .num q => .num q
  | .bool b => .bool b
  | .str s => .str s
  | .seq items => .seq (sortList items)
  | .map entries => .map (sortByKey (sortEntries entries))

/-- Canonicalize every element of a sequence, preserving order. -/
def sortList : List V → List V
  | [] => []
  | v :: rest => sortStructure v :: sortList rest

/-- Canonicalize every value of an entry list, preserving keys and order. -/
def sortEntries : List (String × V) → List (String × V)
  | [] => []
  | (k, v) :: rest => (k, sortStructure v) :: sortEntries rest
end

/-- One JSON string character: `json.dumps` escapes the quote and the
backslash (control and non-ASCII characters would additionally be
`\u`-escaped; policy-table payloads are printable ASCII). -/
def escapeChar (c : Char) : String :=
  if c = '"' then "\\\"" else if c = '\\' then "\\\\" else String.singleton c

/-- A JSON string literal. -/
def jsonStr (s : String) : String :=
  "\"" ++ String.join (s.data.map escapeChar) ++ "\""

/-- A JSON number. Integral values render exactly as `json.dumps` renders
Python ints; Python renders non-integral floats by shortest round-trip
decimal `repr`, which has no counterpart on `ℚ` and is modelled by the exact
rational rendering.  No claim evaluates a digest, so only the congruence
`equal values render equally` flows into the theorems. -/
def jsonNum (q : ℚ) : String :=
  if q.den = 1 then toString q.num else toString q

mutual
/-- `json.dumps(value, separators=(",", ":"))`: canonical compact rendering
with no added whitespace. -/
def serialize : V → String
  | .num q => jsonNum q
  | .bool b => if b then "true" else "false"
  | .str s => jsonStr s
  | .seq items => "[" ++ serializeList items ++ "]"
  | .map entries => "\x7b" ++ serializeEntries entries ++ "\x7d"

/-- Comma-joined rendering of sequence elements. -/
def serializeList : List V → String
  | [] => ""
  | [v] => serialize v
  | v :: rest => serialize v ++ "," ++ serializeList rest

/-- Comma-joined rendering of `"key":value` pairs. -/
def serializeEntries : List (String × V) → String
  | [] => ""
  | [(k, v)] => jsonStr k ++ ":" ++ serialize v
  | (k, v) :: rest =>
      jsonStr k ++ ":" ++ serialize v ++ "," ++ serializeEntries rest
end

/-- `canonical.encode("utf-8")`: UTF-8 bytes of the serialization, which on
the printable-ASCII output of `serialize` coincide with the code points. -/
def strBytes (s : String) : List Nat := s.data.map Char.toNat

/-- Truncation to a 32-bit word. -/
def w32 (n : Nat) : Nat := n % 4294967296

/-- 32-bit right rotation. -/
def rotr (x n : Nat) : Nat := w32 ((x >>> n) ||| (x <<< (32 - n)))

/-- SHA-256 `Ch`. -/
def shaCh (x y z : Nat) : Nat := (x &&& y) ^^^ ((x ^^^ 4294967295) &&& z)

/-- SHA-256 `Maj`. -/
def shaMaj (x y z : Nat) : Nat := (x &&& y) ^^^ (x &&& z) ^^^ (y &&& z)

/-- SHA-256 `Σ₀`. -/
def bigSigma0 (x : Nat) : Nat := rotr x 2 ^^^ rotr x 13 ^^^ rotr x 22

/-- SHA-256 `Σ₁`. -/
def bigSigma1 (x : Nat) : Nat := rotr x 6 ^^^ rotr x 11 ^^^ rotr x 25

/-- SHA-256 `σ₀`. -/
def smallSigma0 (x : Nat) : Nat := rotr x 7 ^^^ rotr x 18 ^^^ (x >>> 3)

/-- SHA-256 `σ₁`. -/
def smallSigma1 (x : Nat) : Nat := rotr x 17 ^^^ rotr x 19 ^^^ (x >>> 10)

/-- SHA-256 round constants (FIPS 180-4). -/
def shaK : List Nat :=
  [1116352408, 1899447441, 3049323471, 3921009573, 961987163,
   1508970993, 2453635748, 2870763221, 3624381080, 310598401,
   607225278, 1426881987, 1925078388, 2162078206, 2614888103,
   3248222580, 3835390401, 4022224774, 264347078, 604807628,
   770255983, 1249150122, 1555081692, 1996064986, 2554220882,
   2821834349, 2952996808, 3210313671, 3336571891, 3584528711,
   113926993, 338241895, 666307205, 773529912, 1294757372,
   1396182291, 1695183700, 1986661051, 2177026350, 2456956037,
   2730485921, 2820302411, 3259730800, 3345764771, 3516065817,
   3600352804, 4094571909, 275423344, 430227734, 506948616,
   659060556, 883997877, 958139571, 1322822218, 1537002063,
   1747873779, 1955562222, 2024104815, 2227730452, 2361852424,
   2428436474, 2756734187, 3204031479, 3329325298]

/-- SHA-256 initial hash state (FIPS 180-4). -/
def shaH0 : List Nat :=
  [1779033703, 3144134277, 1013904242, 2773480762, 1359893119,
   2600822924, 528734635, 1541459225]

/-- Big-endian 8-byte rendering of a length in bits. -/
def lenBytes (n : Nat) : List Nat :=
  (List.range 8).map (fun i => (n >>> ((7 - i) * 8)) % 256)

/-- SHA-256 padding: append `0x80`, zero bytes up to 56 mod 64, then the
bit length as 8 big-endian bytes. -/
def padMessage (msg : List Nat) : List Nat :=
  msg ++ [128] ++ List.replicate ((119 - msg.length % 64) % 64) 0 ++
    lenBytes (msg.length * 8)

/-- Group 4 big-endian bytes into one 32-bit word. -/
def bytesToWords : List Nat → List Nat
  | b0 :: b1 :: b2 :: b3 :: rest =>
      (((b0 * 256 + b1) * 256 + b2) * 256 + b3) :: bytesToWords rest
  | _ => []

/-- Extend 16 schedule words to 64. -/
def extendSchedule (w : List Nat) : List Nat :=
  (List.range 48).foldl
    (fun acc _ =>
      let n := acc.length
      acc ++ [w32 (smallSigma1 (acc.getD (n - 2) 0) + acc.getD (n - 7) 0 +
        smallSigma0 (acc.getD (n - 15) 0) + acc.getD (n - 16) 0)])
    w

/-- One SHA-256 compression round. -/
def compressStep (st : Nat × Nat × Nat × Nat × Nat × Nat × Nat × Nat)
    (kw : Nat × Nat) : Nat × Nat × Nat × Nat × Nat × Nat × Nat × Nat :=
  let (a, b, c, d, e, f, g, h) := st
  let t1 := w32 (h + bigSigma1 e + shaCh e f g + kw.1 + kw.2)
  let t2 := w32 (bigSigma0 a + shaMaj a b c)
  (w32 (t1 + t2), a, b, c, w32 (d + t1), e, f, g)

/-- Process one 512-bit chunk. -/
def processChunk (h : List Nat) (chunk : List Nat) : List Nat :=
  match h with
  | [h0, h1, h2, h3, h4, h5, h6, h7] =>
      let w := extendSchedule (bytesToWords chunk)
      let (a, b, c, d, e, f, g, hh) :=
        (shaK.zip w).foldl compressStep (h0, h1, h2, h3, h4, h5, h6, h7)
      [w32 (h0 + a), w32 (h1 + b), w32 (h2 + c), w32 (h3 + d), w32 (h4 + e),
       w32 (h5 + f), w32 (h6 + g), w32 (h7 + hh)]
  | _ => h

/-- Split a byte list into 64-byte chunks. -/
def chunks64 : List Nat → List (List Nat)
  | [] => []
  | a :: rest => ((a :: rest).take 64) :: chunks64 ((a :: rest).drop 64)
termination_by l => l.length
decreasing_by simp [List.length_drop]; omega

/-- `hashlib.sha256(...)`: the 32 digest bytes. -/
def sha256 (msg : List Nat) : List Nat :=
  let hFinal :=
    (chunks64 (padMessage msg)).foldl processChunk shaH0
  (hFinal.map (fun wrd =>
    [(wrd >>> 24) % 256, (wrd >>> 16) % 256, (wrd >>> 8) % 256,
     wrd % 256])).flatten

/-- One lowercase hexadecimal digit. -/
def hexDigit (n : Nat) : Char :=
  if n < 10 then Char.ofNat (48 + n) else Char.ofNat (87 + n)

/-- Lowercase hexadecimal rendering of one byte. -/
def byteHex (b : Nat) : String :=
  String.mk [hexDigit (b / 16 % 16), hexDigit (b % 16)]

/-- `.hexdigest()`: lowercase hex encoding of the digest bytes. -/
def hexEncode (bytes : List Nat) : String := String.join (bytes.map byteHex)

/-- `PolicyDataLoader._compute_hash`: canonicalize with `_sort_structure`,
serialize compactly, then the lowercase-hex SHA-256 digest of the UTF-8
bytes. -/
def computeHash (data : V) : String :=
  hexEncode (sha256 (strBytes (serialize (sortStructure data))))

/-- The table stores nested mappings at every intermediate segment of the
path and the numeric leaf `V.num v` at its full extent. -/
def numLeafAt : List (String × V) → List String → ℚ → Prop
  | _, [], _ => False
  | node, [s], v => vLookup node s = some (V.num v)
  | node, s :: r :: rs, v =>
      ∃ l, vLookup node s = some (V.map l) ∧ numLeafAt l (r :: rs) v

/-- Pure nested descent: the mapping stored at the full extent of the path,
when the table stores nested mappings at every segment. -/
def mapAt : List (String × V) → List String → Option (List (String × V))
  | node, [] => some node
  | node, s :: rest =>
      match vLookup node s with
      | some (V.map l) => mapAt l rest
      | _ => none

mutual
/-- Structural size of a payload value, used for strong induction. -/
def vsize : V → Nat
  | .num _ => 1
  | .bool _ => 1
  | .str _ => 1
  | .seq items => 1 + vlistSize items
  | .map entries => 1 + ventriesSize entries

/-- Structural size of a sequence's elements. -/
def vlistSize : List V → Nat
  | [] => 0
  | v :: rest => vsize v + vlistSize rest

/-- Structural size of an entry list's values. -/
def ventriesSize : List (String × V) → Nat
  | [] => 0
  | (_, v) :: rest => vsize v + ventriesSize rest
end

/-- Keys of an entry list are pairwise distinct (a `dict` invariant). -/
def keysNodup (entries : List (String × V)) : Prop :=
  (entries.map Prod.fst).Nodup

mutual
/-- A payload value shaped like parsed YAML: every mapping in it has
pairwise-distinct keys, recursively (`dict`s cannot hold duplicate keys). -/
def wfV : V → Prop
  | .num _ => True
  | .bool _ => True
  | .str _ => True
  | .seq items => wfList items
  | .map entries => keysNodup entries ∧ wfEntries entries

/-- Well-formedness of a sequence's elements. -/
def wfList : List V → Prop
  | [] => True
  | v :: rest => wfV v ∧ wfList rest

/-- Well-formedness of an entry list's values. -/
def wfEntries : List (String × V) → Prop
  | [] => True
  | (_, v) :: rest => wfV v ∧ wfEntries rest
end

mutual
/-- Two payloads are equal up to recursive reordering of mapping keys:
identical scalars, sequences related element-wise in order, and mappings
whose entry lists are permutations of each other after recursively relating
the values stored at equal keys. -/
inductive KeyReorder : V → V → Prop where
  | num (q : ℚ) : KeyReorder (.num q) (.num q)
  | bool (b : Bool) : KeyReorder (.bool b) (.bool b)
  | str (s : String) : KeyReorder (.str s) (.str s)
  | seq {l₁ l₂ : List V} : KRList l₁ l₂ → KeyReorder (.seq l₁) (.seq l₂)
  | map {l₁ l₂ l₃ : List (String × V)} :
      KREntries l₁ l₂ → l₂.Perm l₃ → KeyReorder (.map l₁) (.map l₃)

/-- Element-wise `KeyReorder` on sequences. -/
inductive KRList : List V → List V → Prop where
  | nil : KRList [] []
  | cons {v w : V} {l₁ l₂ : List V} :
      KeyReorder v w → KRList l₁ l₂ → KRList (v :: l₁) (w :: l₂)

/-- Entry-wise `KeyReorder` on entry lists: equal keys in equal positions,
values related recursively. -/
inductive KREntries : List (String × V) → List (String × V) → Prop where
  | nil : KREntries [] []
  | cons {k : String} {v w : V} {l₁ l₂ : List (String × V)} :
      KeyReorder v w → KREntries l₁ l₂ →
      KREntries ((k, v) :: l₁) ((k, w) :: l₂)
end

deriving instance DecidableEq for Except

/-! ## Theorems: risk-weight resolution (C1, C3) -/

/-- The traversal loop on a path whose intermediate segments are nested
mappings and whose last segment stores a numeric leaf: the loop succeeds and
the resulting node maps the last segment to that leaf (the leaf is wrapped
into the single-entry mapping keyed by the last segment). -/
theorem rwLoop_numLeaf :
    ∀ (path : List String) (node : List (String × V)) (v : ℚ) (ps : String),
      numLeafAt node path v →
      ∃ node' last, path.getLast? = some last ∧
        rwLoop ps node path = .ok node' ∧ vLookup node' last = some (V.num v)
  | [], _, _, _, h => absurd h (by simp [numLeafAt])
  | [s], node, v, ps, h => by
      simp only [numLeafAt] at h
      refine ⟨[(s, V.num v)], s, rfl, ?_, ?_⟩
      · simp [rwLoop, h]
      · simp [vLookup]
  | s :: r :: rs, node, v, ps, h => by
      simp only [numLeafAt] at h
      obtain ⟨l, hl, hrec⟩ := h
      obtain ⟨node', last, hlast, hloop, hfind⟩ :=
        rwLoop_numLeaf (r :: rs) l v ps hrec
      refine ⟨node', last, ?_, ?_, hfind⟩
      · simpa using hlast
      · simp only [rwLoop]
        rw [hl]
        simp only [rwLoop] at hloop
        exact hloop

/-- C1: for every exposure whose resolved classification path reaches,
through nested mappings at every intermediate segment, a numeric leaf `v` at
the full path in `risk_weights.exposures`, risk-weight resolution succeeds
and returns exactly `v`. -/
theorem risk_weight_resolution_exact (policy : PolicyData)
    (path : List String) (v : ℚ)
    (h : numLeafAt (exposuresTable policy) path v) :
    riskWeightFromPolicy policy path = .ok v := by
  obtain ⟨node', last, hlast, hloop, hfind⟩ :=
    rwLoop_numLeaf path (exposuresTable policy) v (joinPath path) h
  simp [riskWeightFromPolicy, riskWeightResolve, hlast, hloop, hfind,
    V.isNumeric, V.toFloat]

/-- Witness for C1 at the concrete `sovereign/1 ↦ 0.2` table. -/
theorem risk_weight_resolution_exact_witness :
    riskWeightFromPolicy
      { name := "BCBS_MAR"
        risk_weights :=
          [("exposures", V.map [("sovereign", V.map [("1", V.num (1/5))])])]
        lgd_tables := []
        hedging_rules := []
        mappings := []
        hashes := [] }
      ["sovereign", "1"] = .ok (1/5) :=
  risk_weight_resolution_exact _ _ _ ⟨_, rfl, rfl⟩

/-- The traversal loop descends exactly through nested mappings: when pure
nested descent along the whole path reaches the mapping `M`, the loop
returns `M`. -/
theorem rwLoop_mapAt :
    ∀ (path : List String) (node M : List (String × V)) (ps : String),
      mapAt node path = some M → rwLoop ps node path = .ok M
  | [], node, M, ps, h => by
      simp only [mapAt, Option.some.injEq] at h
      simp [rwLoop, h]
  | s :: rest, node, M, ps, h => by
      simp only [mapAt] at h
      cases hv : vLookup node s with
      | none => rw [hv] at h; simp at h
      | some v =>
          cases v with
          | map l =>
              rw [hv] at h
              simpa [rwLoop, hv] using rwLoop_mapAt rest l M ps h
          | num q => rw [hv] at h; simp at h
          | bool b => rw [hv] at h; simp at h
          | str s' => rw [hv] at h; simp at h
          | seq items => rw [hv] at h; simp at h

/-- C3 (counterexample to the claim as stated): at the table
`{a: {b: {b: 0.5}}}` the full extent of the path `a/b` stores a nested
mapping, yet resolution does not fail — the loop also consumes the last
segment, descends into that mapping, finds the key `b` again and returns
`0.5`. -/
theorem risk_weight_full_extent_mapping_counterexample :
    mapAt [("a", V.map [("b", V.map [("b", V.num (1/2))])])] ["a", "b"] =
      some [("b", V.num (1/2))] ∧
    riskWeightResolve [("a", V.map [("b", V.map [("b", V.num (1/2))])])]
      ["a", "b"] = .ok (1/2) :=
  ⟨rfl, rfl⟩

/-- C3 (amended): the traversal consumes every path segment including the
last (descending into nested mappings, wrapping leaves met mid-path into a
single-entry mapping keyed by the same segment), then looks the last segment
up in the resulting node.  Consequently, when the table stores a nested
mapping `M` at the full extent of the path, resolution returns `float` of
`M[last]` when `M` itself maps the last segment to a Python-numeric value,
and fails with `RiskWeightResolutionError` otherwise. -/
theorem risk_weight_full_extent_mapping (exposures : List (String × V))
    (path : List String) (last : String) (M : List (String × V))
    (hlast : path.getLast? = some last)
    (hM : mapAt exposures path = some M) :
    riskWeightResolve exposures path =
      match vLookup M last with
      | some v => if v.isNumeric then .ok v.toFloat else nonNumericFailure path
      | none => nonNumericFailure path := by
  have hloop := rwLoop_mapAt path exposures M (joinPath path) hM
  simp [riskWeightResolve, hlast, hloop]

/-- Witness for the amended C3 at the counterexample table. -/
theorem risk_weight_full_extent_mapping_witness :
    riskWeightResolve [("a", V.map [("b", V.map [("b", V.num (1/2))])])]
      ["a", "b"] = .ok (1/2) := by
  have h := risk_weight_full_extent_mapping
    [("a", V.map [("b", V.map [("b", V.num (1/2))])])] ["a", "b"] "b"
    [("b", V.num (1/2))] rfl rfl
  simpa using h

/-! ## Theorems: classification (C4, C8) -/

/-- The counterparty-grade step never alters the exposure class. -/
theorem afterGradeStep_fst (mappings : List (String × V)) (e : Exposure) :
    (afterGradeStep mappings e).1 = (afterProductStep mappings e).1 := by
  simp only [afterGradeStep]
  split <;> rfl

/-- A non-empty optional string is truthy. -/
theorem truthy_some_ne (s : String) (h : s ≠ "") : truthy (some s) = true := by
  have hne : s.isEmpty = false := by
    rw [Bool.eq_false_iff]
    intro hcon
    exact h ((String.isEmpty_iff s).1 hcon)
  simp [truthy, hne]

/-- Exposure with no classification fields, used to exhibit the error the
code actually raises. -/
def c4exposureA : Exposure := { trade_id := "T1", notional := 1, currency := "USD" }

/-- Exposure with only an explicit exposure class. -/
def c4exposureB : Exposure :=
  { trade_id := "T1", notional := 1, currency := "USD",
    exposure_class := some "sovereign" }

/-- C4 (counterexample to the claim as stated): an exposure with no
exposure class fails with `RiskWeightResolutionError` whose message is
prefixed by the trade id — there is no `ClassificationError` carrying the
bare message the claim names. -/
theorem classification_error_type_counterexample :
    resolveClassification [] c4exposureA =
      .error (.riskWeightResolution
        "Exposure T1 missing exposure_class and no mapping available") ∧
    resolveClassification [] c4exposureA ≠
      .error (.classification
        "missing exposure_class and no mapping available") :=
  ⟨rfl, by decide⟩

/-- C4 (amended): an exposure whose exposure class is still unset after the
product-mapping step fails with `RiskWeightResolutionError` carrying the
message `"Exposure <trade_id> missing exposure_class and no mapping
available"`; one whose exposure class is set but whose quality step is still
unset after the product-mapping and counterparty-grade steps fails with
`RiskWeightResolutionError` carrying `"Exposure <trade_id> missing
quality_step for class <exposure_class>"`. -/
theorem classification_missing_field_errors
    (mappings : List (String × V)) (e : Exposure) :
    (truthy (afterProductStep mappings e).1 = false →
      resolveClassification mappings e = .error (.riskWeightResolution
        ("Exposure " ++ e.trade_id ++
          " missing exposure_class and no mapping available"))) ∧
    (truthy (afterProductStep mappings e).1 = true →
      truthy (afterGradeStep mappings e).2 = false →
      resolveClassification mappings e = .error (.riskWeightResolution
        ("Exposure " ++ e.trade_id ++ " missing quality_step for class " ++
          strOf (afterProductStep mappings e).1))) := by
  have hfst := afterGradeStep_fst mappings e
  constructor
  · intro h
    simp [resolveClassification, hfst, h]
  · intro h1 h2
    simp [resolveClassification, hfst, h1, h2]

/-- Witness for the amended C4 on both missing-field shapes. -/
theorem classification_missing_field_errors_witness :
    resolveClassification [] c4exposureA =
      .error (.riskWeightResolution
        "Exposure T1 missing exposure_class and no mapping available") ∧
    resolveClassification [] c4exposureB =
      .error (.riskWeightResolution
        "Exposure T1 missing quality_step for class sovereign") := by
  constructor
  · exact ((classification_missing_field_errors [] c4exposureA).1 rfl).trans rfl
  · exact ((classification_missing_field_errors [] c4exposureB).2 rfl rfl).trans rfl

/-- A mapping that contains a binding is non-empty, hence truthy. -/
theorem vTruthy_of_lookup {l : List (String × V)} {k : String} {v : V}
    (h : vLookup l k = some v) : vTruthy (V.map l) = true := by
  cases l with
  | nil => simp [vLookup] at h
  | cons p rest => simp [vTruthy]

/-- C8: when a truthy `product_type` is mapped by `product_mappings` to
non-empty `exposure` / `quality_step` strings, the product-mapping step
fills only the still-unset fields (`x or y` never overwrites a set field),
and the classification result — hence any risk weight resolved from the
resulting path — equals that of the exposure carrying the effective class
and quality step explicitly. -/
theorem product_mapping_equivalence
    (mappings : List (String × V)) (e : Exposure) (pt ec qs : String)
    (pms pm : List (String × V))
    (hpt : e.product_type = some pt) (hptne : pt ≠ "")
    (hpms : vLookup mappings "product_mappings" = some (V.map pms))
    (hentry : vLookup pms pt = some (V.map pm))
    (hexp : vLookup pm "exposure" = some (V.str ec)) (hecne : ec ≠ "")
    (hq : vLookup pm "quality_step" = some (V.str qs)) (hqsne : qs ≠ "") :
    afterProductStep mappings e =
      (pyOr e.exposure_class (some ec), pyOr e.quality_step (some qs)) ∧
    resolveClassification mappings e =
      resolveClassification mappings
        { e with exposure_class := pyOr e.exposure_class (some ec)
                 quality_step := pyOr e.quality_step (some qs) } ∧
    ∀ (exposures : List (String × V)),
      (match resolveClassification mappings e with
       | .ok p => riskWeightResolve exposures p
       | .error er => (.error er : Except PErr ℚ)) =
      (match resolveClassification mappings
          { e with exposure_class := pyOr e.exposure_class (some ec)
                   quality_step := pyOr e.quality_step (some qs) } with
       | .ok p => riskWeightResolve exposures p
       | .error er => .error er) := by
  have htruthyTable : vTruthy (V.map pm) = true := vTruthy_of_lookup hexp
  have htpt : truthy (some pt) = true := truthy_some_ne pt hptne
  have hfill : afterProductStep mappings e =
      (pyOr e.exposure_class (some ec), pyOr e.quality_step (some qs)) := by
    by_cases h1 : truthy e.exposure_class
    · by_cases h2 : truthy e.quality_step
      · simp [afterProductStep, hpt, h1, h2, pyOr]
      · simp [afterProductStep, hpt, htpt, hpms, hentry, hexp, hq, h1, h2,
          vGet, vGetStr, strOf, htruthyTable]
    · simp [afterProductStep, hpt, htpt, hpms, hentry, hexp, hq, h1, vGet,
        vGetStr, strOf, htruthyTable]
  have hec' : truthy (pyOr e.exposure_class (some ec)) = true := by
    by_cases h1 : truthy e.exposure_class
    · simp [pyOr, h1]
    · simp [pyOr, h1, truthy_some_ne ec hecne]
  have hqs' : truthy (pyOr e.quality_step (some qs)) = true := by
    by_cases h2 : truthy e.quality_step
    · simp [pyOr, h2]
    · simp [pyOr, h2, truthy_some_ne qs hqsne]
  have hgradeE : afterGradeStep mappings e =
      (pyOr e.exposure_class (some ec), pyOr e.quality_step (some qs)) := by
    simp [afterGradeStep, hfill, hqs']
  have hfillE' : afterProductStep mappings
      { e with exposure_class := pyOr e.exposure_class (some ec)
               quality_step := pyOr e.quality_step (some qs) } =
      (pyOr e.exposure_class (some ec), pyOr e.quality_step (some qs)) := by
    simp [afterProductStep, hec', hqs']
  have hgradeE' : afterGradeStep mappings
      { e with exposure_class := pyOr e.exposure_class (some ec)
               quality_step := pyOr e.quality_step (some qs) } =
      (pyOr e.exposure_class (some ec), pyOr e.quality_step (some qs)) := by
    simp [afterGradeStep, hfillE', hqs']
  have hcls : resolveClassification mappings e =
      resolveClassification mappings
        { e with exposure_class := pyOr e.exposure_class (some ec)
                 quality_step := pyOr e.quality_step (some qs) } := by
    simp [resolveClassification, hgradeE, hgradeE']
  exact ⟨hfill, hcls, fun exposures => by rw [hcls]⟩

/-- Witness for C8: a derivable product mapping resolves identically to the
explicit-field exposure. -/
theorem product_mapping_equivalence_witness :
    resolveClassification
      [("product_mappings",
        V.map [("bond", V.map [("exposure", V.str "sov"),
                               ("quality_step", V.str "1")])])]
      { trade_id := "T", notional := 1, currency := "USD",
        product_type := some "bond" } =
    resolveClassification
      [("product_mappings",
        V.map [("bond", V.map [("exposure", V.str "sov"),
                               ("quality_step", V.str "1")])])]
      { trade_id := "T", notional := 1, currency := "USD",
        product_type := some "bond", exposure_class := some "sov",
        quality_step := some "1" } :=
  (product_mapping_equivalence
    [("product_mappings",
      V.map [("bond", V.map [("exposure", V.str "sov"),
                             ("quality_step", V.str "1")])])]
    { trade_id := "T", notional := 1, currency := "USD",
      product_type := some "bond" }
    "bond" "sov" "1"
    [("bond", V.map [("exposure", V.str "sov"),
                     ("quality_step", V.str "1")])]
    [("exposure", V.str "sov"), ("quality_step", V.str "1")]
    rfl (by decide) (by rfl) (by rfl) (by rfl) (by decide) (by rfl)
    (by decide)).2.1

/-! ## Theorems: capital charge (C2) -/

/-- C2: every successfully resolved exposure computation satisfies
`capital_charge = notional * risk_weight` when no LGD resolved and
`capital_charge = notional * risk_weight * lgd` when an LGD resolved,
exactly, where `risk_weight` and `lgd` are the values the result carries
and `notional` is the exposure's notional. -/
theorem capital_charge_formula (policy : PolicyData) (e : Exposure)
    (r : ExposureComputation) (h : computeExposure policy e = .ok r) :
    r.notional = e.notional ∧
    (r.lgd = none → r.capital_charge = r.notional * r.risk_weight) ∧
    (∀ l, r.lgd = some l → r.capital_charge = r.notional * r.risk_weight * l) := by
  simp only [computeExposure, bind, Except.bind] at h
  cases hc : resolveClassification policy.mappings e with
  | error er => rw [hc] at h; exact absurd h (by simp)
  | ok path =>
      rw [hc] at h
      dsimp only at h
      cases hw : riskWeightFromPolicy policy path with
      | error er => rw [hw] at h; exact absurd h (by simp)
      | ok rwq =>
          rw [hw] at h
          dsimp only at h
          cases hl : resolveLgd policy.lgd_tables e with
          | error er => rw [hl] at h; exact absurd h (by simp)
          | ok lgd =>
              rw [hl] at h
              simp only [Except.ok.injEq] at h
              subst h
              cases lgd with
              | none =>
                  refine ⟨rfl, fun _ => rfl, fun l hle => ?_⟩
                  simp at hle
              | some l0 =>
                  refine ⟨rfl, fun hle => by simp at hle, fun l hle => ?_⟩
                  simp only [Option.some.injEq] at hle
                  subst hle
                  rfl

/-- Concrete policy for the C2 witness (the spec's `T2` figures). -/
def c2policy : PolicyData :=
  { name := "BCBS_MAR"
    risk_weights :=
      [("exposures",
        V.map [("financials",
          V.map [("large_bank", V.map [("senior", V.num (7/20))])])])]
    lgd_tables :=
      [("lgd", V.map [("financials",
        V.map [("senior_secured", V.num (7/20))])])]
    hedging_rules := []
    mappings := []
    hashes := [] }

/-- Concrete exposure for the C2 witness. -/
def c2exposure : Exposure :=
  { trade_id := "T2", notional := 500000, currency := "USD",
    exposure_class := some "financials",
    quality_step := some "large_bank/senior",
    lgd_grade := some "senior_secured" }

/-- The computation the engine produces for `c2exposure` under `c2policy`:
`500000 × 0.35 × 0.35 = 61250`. -/
def c2result : ExposureComputation :=
  { trade_id := "T2", notional := 500000, risk_weight := 7/20,
    capital_charge := 500000 * (7/20) * (7/20),
    classification_path := ["financials", "large_bank", "senior"],
    lgd := some (7/20), metadata := [] }

/-- Witness for C2 at the spec's concrete `T2` exposure:
`500000 × 0.35 × 0.35 = 61250`. -/
theorem capital_charge_formula_witness :
    computeExposure c2policy c2exposure = .ok c2result ∧
    c2result.capital_charge =
      c2result.notional * c2result.risk_weight * (7/20) ∧
    c2result.capital_charge = 61250 :=
  ⟨by rfl,
   (capital_charge_formula c2policy c2exposure c2result (by rfl)).2.2
     (7/20) rfl,
   by norm_num [c2result]⟩

/-! ## Theorems: LGD resolution (C5, C9) -/

/-- A truthy optional string has non-empty content. -/
theorem strOf_ne_of_truthy {o : Option String} (h : truthy o = true) :
    strOf o ≠ "" := by
  cases o with
  | none => simp [truthy] at h
  | some s =>
      intro hc
      have hemp : s.isEmpty = true := by
        rw [String.isEmpty_iff]
        exact hc
      simp [truthy, hemp] at h

/-- `float()` succeeds on every Python-numeric value, yielding `toFloat`. -/
theorem toFloatQ_of_isNumeric {v : V} (h : v.isNumeric = true) :
    v.toFloatQ = some v.toFloat := by
  cases v <;> simp_all [V.isNumeric, V.toFloatQ, V.toFloat]

/-- C5: the complete case analysis of LGD resolution.  No LGD when the
exposure supplies neither `lgd_grade` nor `exposure_class`; when
`lgd_tables.lgd[exposure_class]` is a mapping, the numeric value at the
direct `lgd_grade` key when that key is set and present, else the first
numeric value met while walking the quality-step segments against that node
(first match wins); when the class lookup produced no value, the top-level
`lgd_grade` key of `lgd_tables.lgd` when it maps directly to a number; and
no LGD otherwise. -/
theorem lgd_resolution_cases (lgd_tables : List (String × V)) (e : Exposure) :
    (truthy e.lgd_grade = false → truthy e.exposure_class = false →
      resolveLgd lgd_tables e = .ok none) ∧
    (∀ node q, truthy e.exposure_class = true →
      vLookup (lgdTableOf lgd_tables) (strOf e.exposure_class) =
        some (V.map node) →
      truthy e.lgd_grade = true →
      vLookup node (strOf e.lgd_grade) = some (V.num q) →
      resolveLgd lgd_tables e = .ok (some q)) ∧
    (∀ node q, truthy e.exposure_class = true →
      vLookup (lgdTableOf lgd_tables) (strOf e.exposure_class) =
        some (V.map node) →
      (truthy e.lgd_grade = false ∨
        vLookup node (strOf e.lgd_grade) = none) →
      lgdWalk (V.map node) (qualitySegments e) = some q →
      resolveLgd lgd_tables e = .ok (some q)) ∧
    (∀ q, classLgd (lgdTableOf lgd_tables) e = .ok none →
      truthy e.lgd_grade = true →
      vLookup (lgdTableOf lgd_tables) (strOf e.lgd_grade) =
        some (V.num q) →
      resolveLgd lgd_tables e = .ok (some q)) ∧
    (classLgd (lgdTableOf lgd_tables) e = .ok none →
      (∀ cand, vLookup (lgdTableOf lgd_tables) (strOf e.lgd_grade) =
        some cand → cand.isNumeric = false) →
      resolveLgd lgd_tables e = .ok none) := by
  refine ⟨?_, ?_, ?_, ?_, ?_⟩
  · intro h1 h2
    simp [resolveLgd, h1, h2]
  · intro node q hclass hnode hgrade hdirect
    have hck := strOf_ne_of_truthy hclass
    have hgk := strOf_ne_of_truthy hgrade
    have hcl : classLgd (lgdTableOf lgd_tables) e = .ok (some q) := by
      simp [classLgd, hck, hgk, hnode, hdirect, V.toFloatQ]
    simp [resolveLgd, hclass, hcl]
  · intro node q hclass hnode hmiss hwalk
    have hck := strOf_ne_of_truthy hclass
    have hcl : classLgd (lgdTableOf lgd_tables) e = .ok (some q) := by
      rcases hmiss with hg | hg
      · have : strOf e.lgd_grade = "" := by
          cases ho : e.lgd_grade with
          | none => simp [strOf]
          | some s =>
              rw [ho] at hg
              simp only [truthy, Bool.not_eq_true] at hg
              simp [strOf, (String.isEmpty_iff s).1 (by simpa using hg)]
        simp [classLgd, hck, this, hnode, hwalk]
      · by_cases hgk : strOf e.lgd_grade = ""
        · simp [classLgd, hck, hgk, hnode, hwalk]
        · simp [classLgd, hck, hgk, hnode, hg, hwalk]
    simp [resolveLgd, hclass, hcl]
  · intro q hcl hgrade htop
    have hgk := strOf_ne_of_truthy hgrade
    simp [resolveLgd, hgrade, hcl, hgk, htop, V.isNumeric, V.toFloat]
  · intro hcl htop
    by_cases hboth : (!truthy e.lgd_grade && !truthy e.exposure_class) = true
    · simp [resolveLgd, hboth]
    · have hb : (!truthy e.lgd_grade && !truthy e.exposure_class) = false := by
        simpa using hboth
      simp only [resolveLgd, hb, Bool.false_eq_true, if_false, hcl]
      by_cases hgk : strOf e.lgd_grade = ""
      · simp [hgk]
      · cases hv : vLookup (lgdTableOf lgd_tables) (strOf e.lgd_grade) with
        | none => simp [hgk, hv]
        | some cand => simp [hgk, hv, htop cand hv]

/-- Concrete LGD table exercising the C5 branches. -/
def c5tables : List (String × V) :=
  [("lgd", V.map
    [("financials", V.map [("senior", V.num (7/20)), ("big", V.num (1/4))]),
     ("senior_secured", V.num (2/5))])]

/-- Witness for C5: the direct-grade, walk, top-level and no-LGD branches at
concrete exposures. -/
theorem lgd_resolution_cases_witness :
    resolveLgd c5tables
      { trade_id := "T", notional := 1, currency := "USD",
        exposure_class := some "financials", lgd_grade := some "senior" } =
      .ok (some (7/20)) ∧
    resolveLgd c5tables
      { trade_id := "T", notional := 1, currency := "USD",
        exposure_class := some "financials",
        quality_step := some "big/deep" } = .ok (some (1/4)) ∧
    resolveLgd c5tables
      { trade_id := "T", notional := 1, currency := "USD",
        lgd_grade := some "senior_secured" } = .ok (some (2/5)) ∧
    resolveLgd c5tables
      { trade_id := "T", notional := 1, currency := "USD" } = .ok none := by
  refine ⟨?_, ?_, ?_, ?_⟩
  · exact (lgd_resolution_cases c5tables _).2.1
      [("senior", V.num (7/20)), ("big", V.num (1/4))] (7/20)
      rfl (by rfl) rfl (by rfl)
  · exact (lgd_resolution_cases c5tables _).2.2.1
      [("senior", V.num (7/20)), ("big", V.num (1/4))] (1/4)
      rfl (by rfl) (Or.inl rfl) (by rfl)
  · exact (lgd_resolution_cases c5tables _).2.2.2.1 (2/5) (by rfl) rfl (by rfl)
  · exact (lgd_resolution_cases c5tables _).1 rfl rfl

/-- C9 (counterexample to the claim as stated): a policy table that passes
`lgd_tables` validation on which LGD resolution raises — the exposure's
`lgd_grade` is a direct key of the class node but stores a nested mapping,
so the unguarded `float()` call raises `TypeError`. -/
theorem lgd_resolution_raises_counterexample :
    validateLgdTables
      [("version", V.str "1"),
       ("lgd", V.map [("corp",
         V.map [("senior", V.map [("x", V.num (2/5))])])])] = .ok () ∧
    resolveLgd
      [("version", V.str "1"),
       ("lgd", V.map [("corp",
         V.map [("senior", V.map [("x", V.num (2/5))])])])]
      { trade_id := "T", notional := 1, currency := "USD",
        exposure_class := some "corp", lgd_grade := some "senior" } =
      .error (.typeError "float() applied to a non-numeric LGD value") :=
  ⟨rfl, rfl⟩

/-- C9 (amended): LGD resolution never raises unless the exposure's
`lgd_grade` is a direct key of the class node holding a non-Python-numeric
value (on a validated table, necessarily a nested mapping, where `float()`
raises `TypeError`); and during the quality-step walk a segment absent from
the current node is silently skipped, the walk continuing with the next
segment against the same node. -/
theorem lgd_resolution_totality (lgd_tables : List (String × V))
    (e : Exposure)
    (hsafe : ∀ node cand,
      vLookup (lgdTableOf lgd_tables) (strOf e.exposure_class) =
        some (V.map node) →
      vLookup node (strOf e.lgd_grade) = some cand →
      cand.isNumeric = true) :
    (resolveLgd lgd_tables e).isOk = true ∧
    (∀ (l : List (String × V)) (seg : String) (rest : List String),
      vLookup l seg = none →
      lgdWalk (V.map l) (seg :: rest) = lgdWalk (V.map l) rest) := by
  constructor
  · have hcl : ∀ r, classLgd (lgdTableOf lgd_tables) e = .ok r →
        (resolveLgd lgd_tables e).isOk = true := by
      intro r hr
      by_cases hboth :
          (!truthy e.lgd_grade && !truthy e.exposure_class) = true
      · simp [resolveLgd, hboth, Except.isOk, Except.toBool]
      · cases r with
        | none =>
            simp only [resolveLgd, hboth, if_false, Bool.false_eq_true, hr]
            by_cases hgk : strOf e.lgd_grade = ""
            · simp [hgk, Except.isOk, Except.toBool]
            · cases hv : vLookup (lgdTableOf lgd_tables)
                  (strOf e.lgd_grade) with
              | none => simp [hgk, hv, Except.isOk, Except.toBool]
              | some cand =>
                  by_cases hn : cand.isNumeric = true
                  · simp [hgk, hv, hn, Except.isOk, Except.toBool]
                  · simp [hgk, hv, hn, Except.isOk, Except.toBool]
        | some q =>
            simp [resolveLgd, hboth, hr, Except.isOk, Except.toBool]
    by_cases hck : strOf e.exposure_class = ""
    · exact hcl none (by simp [classLgd, hck])
    · cases hv : vLookup (lgdTableOf lgd_tables) (strOf e.exposure_class) with
      | none => exact hcl none (by simp [classLgd, hck, hv])
      | some v =>
          cases v with
          | map node =>
              by_cases hgk : strOf e.lgd_grade = ""
              · exact hcl (lgdWalk (V.map node) (qualitySegments e))
                  (by simp [classLgd, hck, hv, hgk])
              · cases hd : vLookup node (strOf e.lgd_grade) with
                | none =>
                    exact hcl (lgdWalk (V.map node) (qualitySegments e))
                      (by simp [classLgd, hck, hv, hgk, hd])
                | some cand =>
                    have hnum := hsafe node cand hv hd
                    exact hcl (some cand.toFloat) (by
                      simp [classLgd, hck, hv, hgk, hd,
                        toFloatQ_of_isNumeric hnum])
          | num q => exact hcl none (by simp [classLgd, hck, hv])
          | bool b => exact hcl none (by simp [classLgd, hck, hv])
          | str s => exact hcl none (by simp [classLgd, hck, hv])
          | seq items => exact hcl none (by simp [classLgd, hck, hv])
  · intro l seg rest h
    simp [lgdWalk, h]

/-- Witness for the amended C9: resolution is total on an exposure whose
class is absent from the table, and the walk skips an absent segment. -/
theorem lgd_resolution_totality_witness :
    (resolveLgd [("lgd", V.map [("x", V.num 1)])]
      { trade_id := "T", notional := 1, currency := "USD",
        exposure_class := some "corp" }).isOk = true ∧
    lgdWalk (V.map [("deep", V.num (1/4))]) ["big", "deep"] =
      lgdWalk (V.map [("deep", V.num (1/4))]) ["deep"] := by
  have h := lgd_resolution_totality [("lgd", V.map [("x", V.num 1)])]
    { trade_id := "T", notional := 1, currency := "USD",
      exposure_class := some "corp" }
    (fun node cand h1 _ => by
      simp [lgdTableOf, vLookup, strOf, List.lookup] at h1)
  exact ⟨h.1, h.2 [("deep", V.num (1/4))] "big" ["deep"] rfl⟩

/-! ## Theorems: boolean leaves (C10) -/

/-- C10: the numeric-leaf validator accepts boolean leaves (`isinstance`
treats `bool` as `int`), and risk-weight resolution of a path ending at a
boolean leaf returns `1.0` for `true` and `0.0` for `false` instead of
failing. -/
theorem bool_leaf_validation_and_resolution :
    validateRiskWeights
      [("version", V.str "1"),
       ("exposures",
        V.map [("a", V.map [("t", V.bool true), ("f", V.bool false)])])] =
      .ok () ∧
    riskWeightResolve [("a", V.map [("t", V.bool true), ("f", V.bool false)])]
      ["a", "t"] = .ok 1 ∧
    riskWeightResolve [("a", V.map [("t", V.bool true), ("f", V.bool false)])]
      ["a", "f"] = .ok 0 :=
  ⟨rfl, rfl, rfl⟩

/-! ## Theorems: scenario comparison (C7) -/

/-- Lookup passes over a prefix that does not contain the key. -/
theorem lookup_append_of_none {β : Type} (l₁ l₂ : List (String × β))
    (k : String) (h : l₁.lookup k = none) :
    (l₁ ++ l₂).lookup k = l₂.lookup k := by
  induction l₁ with
  | nil => rfl
  | cons p t ih =>
      obtain ⟨pk, pv⟩ := p
      rw [List.cons_append]
      cases hbe : (k == pk)
      · simp only [List.lookup, hbe] at h ⊢
        exact ih h
      · simp [List.lookup, hbe] at h

/-- Folding `dict` insertions of pairwise-fresh keys over an accumulator
free of those keys appends the pairs in order. -/
theorem foldl_dictInsert_append (pairs : List (String × ℚ)) :
    ∀ acc : List (String × ℚ),
      (∀ k, k ∈ pairs.map Prod.fst → acc.lookup k = none) →
      (pairs.map Prod.fst).Nodup →
      pairs.foldl (fun m p => dictInsert m p.1 p.2) acc = acc ++ pairs := by
  induction pairs with
  | nil => intro acc _ _; simp
  | cons p t ih =>
      intro acc hfresh hnodup
      obtain ⟨pk, pv⟩ := p
      have hacc : acc.lookup pk = none := hfresh pk (by simp)
      have hinsert : dictInsert acc pk pv = acc ++ [(pk, pv)] := by
        simp [dictInsert, hacc]
      have hnodup2 : (pk :: t.map Prod.fst).Nodup := by simpa using hnodup
      have hnodup' : (t.map Prod.fst).Nodup := (List.nodup_cons.mp hnodup2).2
      have hpk_not : pk ∉ t.map Prod.fst := (List.nodup_cons.mp hnodup2).1
      have hfresh' : ∀ k, k ∈ t.map Prod.fst →
          (acc ++ [(pk, pv)]).lookup k = none := by
        intro k hk
        have h1 : acc.lookup k = none := hfresh k (by simp [hk])
        have h2 : k ≠ pk := fun hkk => hpk_not (hkk ▸ hk)
        rw [lookup_append_of_none _ _ _ h1]
        simp [List.lookup, beq_eq_false_iff_ne.mpr h2]
      calc (((pk, pv) :: t).foldl (fun m p => dictInsert m p.1 p.2) acc)
          = t.foldl (fun m p => dictInsert m p.1 p.2) (acc ++ [(pk, pv)]) := by
            simp [hinsert]
        _ = (acc ++ [(pk, pv)]) ++ t := ih (acc ++ [(pk, pv)]) hfresh' hnodup'
        _ = acc ++ ((pk, pv) :: t) := by simp

/-- Keyed lookup over the trade-id-indexed projection of an exposure list is
`find?` by trade id. -/
theorem lookup_map_by_id (l : List ExposureComputation)
    (f : ExposureComputation → ℚ) (k : String) :
    (l.map (fun x => (x.trade_id, f x))).lookup k =
      (l.find? (fun b => b.trade_id == k)).map f := by
  induction l with
  | nil => rfl
  | cons y t ih =>
      cases hbe : (y.trade_id == k)
      · have hbe' : (k == y.trade_id) = false := by
          cases hke : (k == y.trade_id)
          · rfl
          · rw [eq_of_beq hke] at hbe
            simp at hbe
        simp only [List.map_cons, List.lookup, hbe', List.find?, hbe]
        exact ih
      · have hbe' : (k == y.trade_id) = true := by
          rw [eq_of_beq hbe]
          exact beq_self_eq_true k
        simp [List.lookup, hbe', List.find?, hbe]

/-- Under pairwise-distinct trade ids, each member's lookup yields its own
projection. -/
theorem lookup_map_self (l : List ExposureComputation)
    (f : ExposureComputation → ℚ)
    (h : (l.map (fun x => x.trade_id)).Nodup)
    (x : ExposureComputation) (hx : x ∈ l) :
    (l.map (fun y => (y.trade_id, f y))).lookup x.trade_id = some (f x) := by
  induction l with
  | nil => simp at hx
  | cons y t ih =>
      rcases List.mem_cons.mp hx with hxy | hxt
      · subst hxy
        simp [List.lookup]
      · have hnodup2 : (y.trade_id :: t.map (fun x => x.trade_id)).Nodup := by
          simpa using h
        have hy_not : y.trade_id ∉ t.map (fun x => x.trade_id) :=
          (List.nodup_cons.mp hnodup2).1
        have hne : (x.trade_id == y.trade_id) = false := by
          cases hbe : (x.trade_id == y.trade_id)
          · rfl
          · exact absurd (eq_of_beq hbe ▸ List.mem_map_of_mem
              (fun z => z.trade_id) hxt) hy_not
        simp only [List.map_cons, List.lookup, hne]
        exact ih (List.nodup_cons.mp hnodup2).2 hxt

/-- C7: for validated scenarios (pairwise-distinct trade ids per scenario),
`compare_scenarios` produces exactly one delta entry per scenario trade id,
in scenario order — equal to the scenario charge minus the baseline charge
for that id when the id occurs in the baseline, and to the full scenario
charge otherwise — with no entries for baseline-only trade ids, and a total
delta equal to the difference of the totals. -/
theorem compare_scenarios_deltas (baseline scenario : ScenarioResult)
    (hs : (scenario.exposures.map (fun x => x.trade_id)).Nodup)
    (hb : (baseline.exposures.map (fun x => x.trade_id)).Nodup) :
    ((compare_scenarios baseline scenario).exposure_deltas.map Prod.fst =
      scenario.exposures.map (fun x => x.trade_id)) ∧
    (∀ x ∈ scenario.exposures,
      (compare_scenarios baseline scenario).exposure_deltas.lookup
          x.trade_id =
        some (match baseline.exposures.find?
            (fun b => b.trade_id == x.trade_id) with
          | some b => x.capital_charge - b.capital_charge
          | none => x.capital_charge)) ∧
    (compare_scenarios baseline scenario).delta_total_charge =
      scenario.total_capital_charge - baseline.total_capital_charge := by
  set bmap := buildDict
    (baseline.exposures.map fun x => (x.trade_id, x.capital_charge))
    with hbmap
  have hdeltas : (compare_scenarios baseline scenario).exposure_deltas =
      scenario.exposures.map (fun x =>
        (x.trade_id, x.capital_charge - ((bmap.lookup x.trade_id).getD 0))) := by
    show scenario.exposures.foldl (fun m x =>
        dictInsert m x.trade_id
          (x.capital_charge - ((bmap.lookup x.trade_id).getD 0))) [] = _
    rw [← List.foldl_map
      (fun x : ExposureComputation =>
        (x.trade_id, x.capital_charge - ((bmap.lookup x.trade_id).getD 0)))
      (fun m p => dictInsert m p.1 p.2)]
    rw [foldl_dictInsert_append _ [] (by simp [List.lookup]) (by simpa using hs)]
    simp
  have hbm : bmap =
      baseline.exposures.map fun x => (x.trade_id, x.capital_charge) := by
    rw [hbmap, buildDict,
      foldl_dictInsert_append _ [] (by simp [List.lookup]) (by simpa using hb)]
    simp
  refine ⟨?_, ?_, rfl⟩
  · rw [hdeltas]
    simp
  · intro x hx
    rw [hdeltas, lookup_map_self _ _ hs x hx, hbm, lookup_map_by_id]
    cases baseline.exposures.find? (fun b => b.trade_id == x.trade_id) with
    | none => simp
    | some b => simp

/-- Baseline exposure `T1` for the C7 witness. -/
def c7b1 : ExposureComputation :=
  { trade_id := "T1", notional := 1000, risk_weight := 1/5,
    capital_charge := 200, classification_path := ["a"], lgd := none,
    metadata := [] }

/-- Baseline-only exposure `T3` for the C7 witness. -/
def c7b3 : ExposureComputation :=
  { trade_id := "T3", notional := 100, risk_weight := 1,
    capital_charge := 100, classification_path := ["a"], lgd := none,
    metadata := [] }

/-- Stressed exposure `T1` for the C7 witness. -/
def c7e1 : ExposureComputation :=
  { trade_id := "T1", notional := 1000, risk_weight := 3/10,
    capital_charge := 300, classification_path := ["a"], lgd := none,
    metadata := [] }

/-- Scenario-only exposure `T2` for the C7 witness. -/
def c7e2 : ExposureComputation :=
  { trade_id := "T2", notional := 100, risk_weight := 3/10,
    capital_charge := 30, classification_path := ["a"], lgd := none,
    metadata := [] }

/-- Concrete baseline result for the C7 witness. -/
def c7baseline : ScenarioResult :=
  { scenario_name := "baseline", total_capital_charge := 300,
    exposures := [c7b1, c7b3], exposure_count := 2, total_notional := 1100 }

/-- Concrete stress result for the C7 witness: `T1` shared with the
baseline, `T2` new, `T3` baseline-only. -/
def c7scenario : ScenarioResult :=
  { scenario_name := "stress", total_capital_charge := 330,
    exposures := [c7e1, c7e2], exposure_count := 2, total_notional := 1100 }

/-- Witness for C7 at concrete baseline/stress results. -/
theorem compare_scenarios_deltas_witness :
    ((compare_scenarios c7baseline c7scenario).exposure_deltas.map Prod.fst =
      ["T1", "T2"]) ∧
    (compare_scenarios c7baseline c7scenario).exposure_deltas.lookup "T1" =
      some 100 ∧
    (compare_scenarios c7baseline c7scenario).exposure_deltas.lookup "T2" =
      some 30 ∧
    (compare_scenarios c7baseline c7scenario).delta_total_charge = 30 := by
  have h := compare_scenarios_deltas c7baseline c7scenario
    (by simp [c7scenario, c7e1, c7e2]) (by simp [c7baseline, c7b1, c7b3])
  refine ⟨by simpa [c7scenario, c7e1, c7e2] using h.1, ?_, ?_, ?_⟩
  · have h1 := h.2.1 c7e1 (by simp [c7scenario])
    norm_num [c7baseline, c7b1, c7b3, c7e1, List.find?] at h1 ⊢
    exact h1
  · have h2 := h.2.1 c7e2 (by simp [c7scenario])
    norm_num [c7baseline, c7b1, c7b3, c7e2, List.find?] at h2 ⊢
    exact h2
  · have h3 := h.2.2
    norm_num [c7baseline, c7scenario] at h3 ⊢
    exact h3

/-! ## Theorems: canonical hashing (C6) -/

/-- Code points determine characters. -/
theorem charToNat_injective : Function.Injective Char.toNat :=
  StrictMono.injective fun ⦃_ _⦄ h => h

/-- Lexicographic comparison is total. -/
theorem charListLe_total : ∀ as bs : List Char,
    charListLe as bs = true ∨ charListLe bs as = true
  | [], _ => Or.inl rfl
  | _ :: _, [] => Or.inr rfl
  | a :: as, b :: bs => by
      rcases Nat.lt_trichotomy a.toNat b.toNat with h | h | h
      · left; simp [charListLe, h]
      · have h1 : ¬ a.toNat < b.toNat := by omega
        have h2 : ¬ b.toNat < a.toNat := by omega
        rcases charListLe_total as bs with hr | hr
        · left; simp [charListLe, h1, h2, hr]
        · right; simp [charListLe, h1, h2, hr]
      · right; simp [charListLe, h]

/-- Lexicographic comparison is antisymmetric. -/
theorem charListLe_antisymm : ∀ as bs : List Char,
    charListLe as bs = true → charListLe bs as = true → as = bs
  | [], [], _, _ => rfl
  | [], _ :: _, _, h2 => by simp [charListLe] at h2
  | _ :: _, [], h1, _ => by simp [charListLe] at h1
  | a :: as, b :: bs, h1, h2 => by
      rcases Nat.lt_trichotomy a.toNat b.toNat with h | h | h
      · simp [charListLe, show ¬ b.toNat < a.toNat by omega, h] at h2
      · have e1 : ¬ a.toNat < b.toNat := by omega
        have e2 : ¬ b.toNat < a.toNat := by omega
        simp only [charListLe, e1, e2, if_false] at h1 h2
        rw [charToNat_injective h, charListLe_antisymm as bs h1 h2]
      · simp [charListLe, show ¬ a.toNat < b.toNat by omega, h] at h1

/-- Lexicographic comparison is transitive. -/
theorem charListLe_trans : ∀ as bs cs : List Char,
    charListLe as bs = true → charListLe bs cs = true →
    charListLe as cs = true
  | [], _, _, _, _ => rfl
  | _ :: _, [], _, h1, _ => by simp [charListLe] at h1
  | _ :: _, _ :: _, [], _, h2 => by simp [charListLe] at h2
  | a :: as, b :: bs, c :: cs, h1, h2 => by
      rcases Nat.lt_trichotomy a.toNat b.toNat with hab | hab | hab <;>
        rcases Nat.lt_trichotomy b.toNat c.toNat with hbc | hbc | hbc
      · simp [charListLe, show a.toNat < c.toNat by omega]
      · simp [charListLe, show a.toNat < c.toNat by omega]
      · simp [charListLe, show ¬ b.toNat < c.toNat by omega,
          show c.toNat < b.toNat by omega] at h2
      · simp [charListLe, show a.toNat < c.toNat by omega]
      · have e1 : ¬ a.toNat < b.toNat := by omega
        have e2 : ¬ b.toNat < a.toNat := by omega
        have e3 : ¬ b.toNat < c.toNat := by omega
        have e4 : ¬ c.toNat < b.toNat := by omega
        simp only [charListLe, e1, e2, e3, e4, if_false] at h1 h2
        simp [charListLe, show ¬ a.toNat < c.toNat by omega,
          show ¬ c.toNat < a.toNat by omega,
          charListLe_trans as bs cs h1 h2]
      · simp [charListLe, show ¬ b.toNat < c.toNat by omega,
          show c.toNat < b.toNat by omega] at h2
      · simp [charListLe, show ¬ a.toNat < b.toNat by omega,
          show b.toNat < a.toNat by omega] at h1
      · simp [charListLe, show ¬ a.toNat < b.toNat by omega,
          show b.toNat < a.toNat by omega] at h1
      · simp [charListLe, show ¬ a.toNat < b.toNat by omega,
          show b.toNat < a.toNat by omega] at h1

/-- String comparison is total. -/
theorem strLeB_total (a b : String) :
    strLeB a b = true ∨ strLeB b a = true :=
  charListLe_total a.data b.data

/-- String comparison is antisymmetric. -/
theorem strLeB_antisymm (a b : String) (h1 : strLeB a b = true)
    (h2 : strLeB b a = true) : a = b := by
  have hd := charListLe_antisymm a.data b.data h1 h2
  cases a
  cases b
  exact congrArg String.mk hd

/-- String comparison is transitive. -/
theorem strLeB_trans (a b c : String) (h1 : strLeB a b = true)
    (h2 : strLeB b c = true) : strLeB a c = true :=
  charListLe_trans a.data b.data c.data h1 h2

/-- Entry lists sorted (non-strictly) by key. -/
def SortedKeys (l : List (String × V)) : Prop :=
  List.Pairwise (fun a b => strLeB a.1 b.1 = true) l

/-- Members of an insertion are the inserted pair or previous members. -/
theorem mem_insertKey {x p : String × V} : ∀ {l : List (String × V)},
    x ∈ insertKey p l → x = p ∨ x ∈ l := by
  intro l
  induction l with
  | nil => intro h; simpa [insertKey] using h
  | cons q t ih =>
      intro h
      by_cases hle : strLeB p.1 q.1 = true
      · simp only [insertKey, hle, if_true] at h
        rcases List.mem_cons.mp h with h' | h'
        · exact Or.inl h'
        · exact Or.inr h'
      · simp only [insertKey, hle, if_false] at h
        rcases List.mem_cons.mp h with h' | h'
        · exact Or.inr (h' ▸ List.mem_cons_self q t)
        · rcases ih h' with h'' | h''
          · exact Or.inl h''
          · exact Or.inr (List.mem_cons_of_mem q h'')

/-- Insertion permutes to consing. -/
theorem insertKey_perm (p : String × V) : ∀ l : List (String × V),
    (insertKey p l).Perm (p :: l)
  | [] => List.Perm.refl _
  | q :: t => by
      by_cases hle : strLeB p.1 q.1 = true
      · simp only [insertKey, hle, if_true]
        exact List.Perm.refl _
      · simp only [insertKey, hle, if_false]
        exact ((insertKey_perm p t).cons q).trans (List.Perm.swap p q t)

/-- Insertion preserves key-sortedness. -/
theorem sortedKeys_insertKey (p : String × V) : ∀ l : List (String × V),
    SortedKeys l → SortedKeys (insertKey p l) := by
  intro l
  induction l with
  | nil =>
      intro _
      simp [insertKey, SortedKeys]
  | cons q t ih =>
      intro h
      have hqt := List.pairwise_cons.mp h
      by_cases hle : strLeB p.1 q.1 = true
      · simp only [insertKey, hle, if_true, SortedKeys]
        refine List.Pairwise.cons ?_ h
        intro x hx
        rcases List.mem_cons.mp hx with h' | h'
        · exact h' ▸ hle
        · exact strLeB_trans _ _ _ hle (hqt.1 x h')
      · simp only [insertKey, hle, if_false, SortedKeys]
        refine List.Pairwise.cons ?_ (ih hqt.2)
        intro x hx
        rcases mem_insertKey hx with h' | h'
        · subst h'
          rcases strLeB_total x.1 q.1 with ht | ht
          · exact absurd ht hle
          · exact ht
        · exact hqt.1 x h'

/-- Sorting permutes to the original entry list. -/
theorem sortByKey_perm : ∀ l : List (String × V), (sortByKey l).Perm l
  | [] => List.Perm.refl _
  | p :: t =>
      (insertKey_perm p (sortByKey t)).trans ((sortByKey_perm t).cons p)

/-- Sorting sorts. -/
theorem sortByKey_sorted : ∀ l : List (String × V), SortedKeys (sortByKey l)
  | [] => List.Pairwise.nil
  | p :: t => sortedKeys_insertKey p _ (sortByKey_sorted t)

/-- Two sorted entry lists that are permutations of each other with
pairwise-distinct keys are equal. -/
theorem sorted_keysNodup_perm_eq : ∀ l₁ l₂ : List (String × V),
    l₁.Perm l₂ → SortedKeys l₁ → SortedKeys l₂ →
    (l₁.map Prod.fst).Nodup → l₁ = l₂ := by
  intro l₁
  induction l₁ with
  | nil =>
      intro l₂ hp _ _ _
      exact hp.nil_eq
  | cons a t ih =>
      intro l₂ hp hs1 hs2 hnd
      cases l₂ with
      | nil =>
          have := hp.symm.nil_eq
          simp at this
      | cons b t₂ =>
          have hab : a = b := by
            rcases List.mem_cons.mp (hp.subset (List.mem_cons_self a t))
              with h1 | h1
            · exact h1
            · rcases List.mem_cons.mp
                  (hp.symm.subset (List.mem_cons_self b t₂)) with h2 | h2
              · exact h2.symm
              · have hle1 : strLeB a.1 b.1 = true :=
                  (List.pairwise_cons.mp hs1).1 b h2
                have hle2 : strLeB b.1 a.1 = true :=
                  (List.pairwise_cons.mp hs2).1 a h1
                have hkey : a.1 = b.1 := strLeB_antisymm _ _ hle1 hle2
                rw [List.map_cons] at hnd
                have hmem : a.1 ∈ t.map Prod.fst :=
                  hkey ▸ List.mem_map_of_mem Prod.fst h2
                exact absurd hmem (List.nodup_cons.mp hnd).1
          subst hab
          have hp' := hp.cons_inv
          rw [List.map_cons] at hnd
          rw [ih t₂ hp' (List.pairwise_cons.mp hs1).2
            (List.pairwise_cons.mp hs2).2 (List.nodup_cons.mp hnd).2]

/-- `sortEntries` maps `sortStructure` over the values. -/
theorem sortEntries_eq_map : ∀ l : List (String × V),
    sortEntries l = l.map (fun p => (p.1, sortStructure p.2))
  | [] => rfl
  | (k, v) :: t => by simp [sortEntries, sortEntries_eq_map t]

/-- `sortList` maps `sortStructure` over the elements. -/
theorem sortList_eq_map : ∀ l : List V,
    sortList l = l.map sortStructure
  | [] => rfl
  | v :: t => by simp [sortList, sortList_eq_map t]

/-- Element-wise characterization of sequence well-formedness. -/
theorem wfList_iff : ∀ l : List V, wfList l ↔ ∀ v ∈ l, wfV v
  | [] => by simp [wfList]
  | v :: t => by
      simp only [wfList, List.mem_cons]
      constructor
      · rintro ⟨h1, h2⟩ x (hx | hx)
        · exact hx ▸ h1
        · exact (wfList_iff t).1 h2 x hx
      · intro h
        exact ⟨h v (Or.inl rfl),
          (wfList_iff t).2 fun x hx => h x (Or.inr hx)⟩

/-- Element-wise characterization of entry-list well-formedness. -/
theorem wfEntries_iff : ∀ l : List (String × V),
    wfEntries l ↔ ∀ p ∈ l, wfV p.2
  | [] => by simp [wfEntries]
  | (k, v) :: t => by
      simp only [wfEntries, List.mem_cons]
      constructor
      · rintro ⟨h1, h2⟩ x (hx | hx)
        · exact hx ▸ h1
        · exact (wfEntries_iff t).1 h2 x hx
      · intro h
        exact ⟨h (k, v) (Or.inl rfl),
          (wfEntries_iff t).2 fun x hx => h x (Or.inr hx)⟩

/-- An element's size is bounded by the sequence's content size. -/
theorem vsize_le_vlistSize {v : V} : ∀ {l : List V},
    v ∈ l → vsize v ≤ vlistSize l := by
  intro l
  induction l with
  | nil => intro h; simp at h
  | cons w t ih =>
      intro h
      rcases List.mem_cons.mp h with h' | h'
      · subst h'
        simp [vlistSize]
      · calc vsize v ≤ vlistSize t := ih h'
          _ ≤ vlistSize (w :: t) := by simp [vlistSize]

/-- An entry value's size is bounded by the entry list's content size. -/
theorem vsize_le_ventriesSize {p : String × V} : ∀ {l : List (String × V)},
    p ∈ l → vsize p.2 ≤ ventriesSize l := by
  intro l
  induction l with
  | nil => intro h; simp at h
  | cons w t ih =>
      intro h
      rcases List.mem_cons.mp h with h' | h'
      · subst h'
        obtain ⟨k, v⟩ := p
        simp [ventriesSize]
      · calc vsize p.2 ≤ ventriesSize t := ih h'
          _ ≤ ventriesSize (w :: t) := by
              obtain ⟨k, v⟩ := w
              simp [ventriesSize]

/-- Canonicalization is invariant under recursive reordering of mapping
keys, on well-formed (duplicate-free) payloads: the heart of C6. -/
theorem sortStructure_keyReorder : ∀ (n : Nat) (p q : V), vsize p < n →
    KeyReorder p q → wfV p → wfV q → sortStructure p = sortStructure q := by
  intro n
  induction n with
  | zero => intro p q hsz; omega
  | succ n ih =>
      intro p q hsz hkr hwp hwq
      cases hkr with
      | num q => rfl
      | bool b => rfl
      | str s => rfl
      | seq hl =>
          rename_i l₁ l₂
          have hlist : ∀ (m₁ : List V), ∀ m₂, KRList m₁ m₂ →
              vlistSize m₁ < n → wfList m₁ → wfList m₂ →
              sortList m₁ = sortList m₂ := by
            intro m₁
            induction m₁ with
            | nil => intro m₂ hm _ _ _; cases hm; rfl
            | cons v t iht =>
                intro m₂ hm hszm hw1 hw2
                cases hm with
                | cons hv ht =>
                    rename_i w t₂
                    simp only [sortList]
                    rw [ih v w (by
                        have h1 : vsize v ≤ vlistSize (v :: t) := by
                          simp [vlistSize]
                        omega)
                      hv hw1.1 hw2.1]
                    rw [iht t₂ ht (by
                        have h1 : vlistSize t ≤ vlistSize (v :: t) := by
                          simp [vlistSize]
                        omega)
                      hw1.2 hw2.2]
          have hsz' : vlistSize l₁ < n := by
            have : vsize (V.seq l₁) = 1 + vlistSize l₁ := rfl
            omega
          simp only [sortStructure]
          rw [hlist l₁ l₂ hl hsz' hwp hwq]
      | map hentries hperm =>
          rename_i l₁ l₂ l₃
          have hwp' : keysNodup l₁ ∧ wfEntries l₁ := hwp
          have hwq' : keysNodup l₃ ∧ wfEntries l₃ := hwq
          have hwl₂ : wfEntries l₂ := by
            rw [wfEntries_iff]
            intro x hx
            exact (wfEntries_iff l₃).1 hwq'.2 x (hperm.subset hx)
          have hsz' : ventriesSize l₁ < n := by
            have : vsize (V.map l₁) = 1 + ventriesSize l₁ := rfl
            omega
          have hstepA : ∀ (m₁ : List (String × V)), ∀ m₂,
              KREntries m₁ m₂ → ventriesSize m₁ < n → wfEntries m₁ →
              wfEntries m₂ → sortEntries m₁ = sortEntries m₂ := by
            intro m₁
            induction m₁ with
            | nil => intro m₂ hm _ _ _; cases hm; rfl
            | cons pv t iht =>
                intro m₂ hm hszm hw1 hw2
                cases hm with
                | cons hv ht =>
                    rename_i k v w t₂
                    simp only [sortEntries]
                    rw [ih v w (by
                        have h1 : vsize v ≤ ventriesSize ((k, v) :: t) := by
                          simp [ventriesSize]
                        omega)
                      hv hw1.1 hw2.1]
                    rw [iht t₂ ht (by
                        have h1 : ventriesSize t ≤
                            ventriesSize ((k, v) :: t) := by
                          simp [ventriesSize]
                        omega)
                      hw1.2 hw2.2]
          have hA : sortEntries l₁ = sortEntries l₂ :=
            hstepA l₁ l₂ hentries hsz' hwp'.2 hwl₂
          have hB : (sortEntries l₂).Perm (sortEntries l₃) := by
            rw [sortEntries_eq_map, sortEntries_eq_map]
            exact hperm.map _
          have hperm13 : (sortByKey (sortEntries l₁)).Perm
              (sortByKey (sortEntries l₃)) :=
            ((sortByKey_perm _).trans ((hA ▸ hB).trans
              (sortByKey_perm _).symm))
          have hkeys : ((sortByKey (sortEntries l₁)).map Prod.fst).Nodup := by
            have hkeq : ((sortByKey (sortEntries l₁)).map Prod.fst).Perm
                (l₁.map Prod.fst) := by
              have h1 := (sortByKey_perm (sortEntries l₁)).map
                (Prod.fst (β := V))
              have h2 : (sortEntries l₁).map Prod.fst = l₁.map Prod.fst := by
                rw [sortEntries_eq_map]
                simp
              rw [h2] at h1
              exact h1
            exact hkeq.nodup_iff.mpr hwp'.1
          simp only [sortStructure]
          rw [sorted_keysNodup_perm_eq _ _ hperm13 (sortByKey_sorted _)
            (sortByKey_sorted _) hkeys]

/-- C6: the table hash is deterministic; recursively reordering mapping keys
of a well-formed payload leaves the digest unchanged; and sequences are left
in their original order (their elements only recursively canonicalized), so
the canonicalization gives no guarantee for reordering a sequence's
elements. -/
theorem table_hash_canonical :
    (∀ data : V, computeHash data = computeHash data) ∧
    (∀ p q : V, wfV p → wfV q → KeyReorder p q →
      computeHash p = computeHash q) ∧
    (∀ items : List V,
      sortStructure (V.seq items) = V.seq (items.map sortStructure)) := by
  refine ⟨fun _ => rfl, ?_, ?_⟩
  · intro p q hwp hwq hkr
    unfold computeHash
    rw [sortStructure_keyReorder (vsize p + 1) p q (Nat.lt_succ_self _)
      hkr hwp hwq]
  · intro items
    simp only [sortStructure]
    rw [sortList_eq_map]

/-- Witness for C6: swapping the keys of a two-entry mapping leaves the
digest unchanged. -/
theorem table_hash_canonical_witness :
    computeHash (V.map [("a", V.num 1), ("b", V.num 2)]) =
      computeHash (V.map [("b", V.num 2), ("a", V.num 1)]) :=
  table_hash_canonical.2.1
    (V.map [("a", V.num 1), ("b", V.num 2)])
    (V.map [("b", V.num 2), ("a", V.num 1)])
    (by constructor <;> simp [keysNodup, wfEntries, wfV])
    (by constructor <;> simp [keysNodup, wfEntries, wfV])
    (KeyReorder.map
      (KREntries.cons (KeyReorder.num 1)
        (KREntries.cons (KeyReorder.num 2) KREntries.nil))
      (List.Perm.swap ("b", V.num 2) ("a", V.num 1) []))

end DRCSA
